import Mathlib

/-!
Verification of the terminal-dashboard interaction controller of
`local-container-registry` (file `tui.go`), shallowly embedded in Lean 4.

Modelling conventions:
* Go strings are modelled by Lean `String`; the byte-level operations used by
  the source (`len`, slicing, single-ASCII-character replacement, trimming a
  single ASCII character) coincide with the character-level operations on the
  underlying `List Char` for the inputs the claims are about.
* Go `int` is modelled by `Int`.
* A Go run-time panic (negative slice index, negative list index) is modelled
  by `Option`: `none` is a panic.
* The bubbles `table.Model` widget is external to the repository; it is
  modelled by the record `TableModel` holding exactly the state the
  controller reads or writes (cursor, columns, rows, width, height).  Its
  internal `Update` method is an opaque parameter `tableStep` of the embedded
  controller.
-/

namespace LCR

/-- Go `strings.ToLower` restricted to the ASCII range (the source applies it
to image references). -/
def goToLower (s : String) : String := ⟨s.data.map Char.toLower⟩

/-- Go `strings.ReplaceAll s old new` for single-character `old`/`new`
(the only form used by `tui.go`). -/
def goReplaceAllChar (s : String) (oldC newC : Char) : String :=
  ⟨s.data.map (fun c => if c = oldC then newC else c)⟩

/-- Go `strings.Trim s cutset` for a single-character cutset: drop all leading
and trailing occurrences of `c`. -/
def goTrimChar (s : String) (c : Char) : String :=
  ⟨((s.data.dropWhile (· = c)).reverse.dropWhile (· = c)).reverse⟩

/-- `truncateString` from `tui.go` lines 887-892:
`if len(s) <= maxLen { return s }; return s[:maxLen-3] + "..."`.
When `maxLen < 3` and `len s > maxLen`, the Go slice `s[:maxLen-3]` has a
negative bound and panics; this is the `none` result. -/
def truncateString (s : String) (maxLen : Int) : Option String :=
  if (s.data.length : Int) ≤ maxLen then some s
  else if maxLen - 3 < 0 then none
  else some (⟨s.data.take (maxLen - 3).toNat⟩ ++ "...")

/-- Total variant of `truncateString`, agreeing with it whenever the Go code
does not panic; all call sites inside the repository use widths ≥ 12, where
the two coincide (`truncateString_eq_total`). -/
def truncateStringTotal (s : String) (maxLen : Int) : String :=
  if (s.data.length : Int) ≤ maxLen then s
  else ⟨s.data.take (maxLen - 3).toNat⟩ ++ "..."

/-- The deployment-name generator from `createNewDeployment`
(`tui.go` lines 819-835): lower-case the image reference, replace
`:` `/` `_` `.` by `-`, trim leading/trailing `-`, substitute
`"new-deployment"` when empty or `"latest"`, and prefix `"app-"` when the
first byte is not a lowercase ASCII letter. -/
def generateDeploymentName (imageName : String) : String :=
  let n := goToLower imageName
  let n := goReplaceAllChar n ':' '-'
  let n := goReplaceAllChar n '/' '-'
  let n := goReplaceAllChar n '_' '-'
  let n := goReplaceAllChar n '.' '-'
  let n := goTrimChar n '-'
  let n := if n = "" ∨ n = "latest" then "new-deployment" else n
  match n.data with
  | [] => n
  | c :: _ => if c < 'a' ∨ 'z' < c then "app-" ++ n else n

/-- The external call performed by the `createNewDeployment` command thunk
(`tui.go` lines 816-843): it invokes
`createKubernetesDeployment(imageName, generatedName, "default")`.  The triple
is (image reference, generated workload name, namespace). -/
def createNewDeploymentCall (imageName : String) : String × String × String :=
  (imageName, generateDeploymentName imageName, "default")

/-- `TableData` from `main.go` lines 52-67: the shared row record for all
three tabs.  Fields keep the Go names; absent fields default to `""` exactly
as Go zero-values them. -/
structure TableData where
  CommitSHA : String := ""
  PRDescription : String := ""
  ImageID : String := ""
  ImageSize : String := ""
  ImageTag : String := ""
  PushedAt : String := ""
  CreatedAt : String := ""
  PodName : String := ""
  Namespace : String := ""
  Status : String := ""
  Restarts : String := ""
  Age : String := ""
  NodeName : String := ""
  deriving DecidableEq

/-- The state of the external bubbles `table.Model` widget that the
controller reads or writes: selection cursor, column schema (title, width),
row data, and viewport dimensions. -/
structure TableModel where
  cursor : Nat := 0
  columns : List (String × Nat) := []
  rows : List (List String) := []
  width : Int := 0
  height : Int := 0
  deriving DecidableEq

/-- The `model` struct from `tui.go` lines 55-76. -/
structure Model where
  table : TableModel
  quitting : Bool
  activeTab : Nat
  tabs : List String
  gitData : List TableData
  dockerData : List TableData
  kubesData : List TableData
  width : Int
  height : Int
  showModal : Bool
  selectedImage : String
  showPodDef : Bool
  selectedPod : String
  selectedPodNS : String
  podDefTable : TableModel
  deployments : List TableData
  selectedDeployment : Int
  deploymentPods : List TableData
  selectedPod2 : Int
  modalStep : Nat
  deriving DecidableEq

/-- The message types consumed by `Update` (`tui.go` lines 658-683, 760-776,
883-885, plus the bubbletea window-size and key messages).  A Go `error`
field is modelled by whether it is nil; a nil `map`/slice payload by
`Option`. -/
inductive Msg where
  | deploymentsMsg (deployments : List TableData)
  | deploymentPodsMsg (pods : List TableData)
  | podDetailsMsg (details : Option (List (String × String))) (errIsNil : Bool)
  | dockerDeleteMsg (success : Bool) (imageID : String) (errIsNil : Bool)
  | dockerPullMsg (success : Bool) (imageTag : String) (errIsNil : Bool)
  | deploymentMsg (success : Bool) (errIsNil : Bool)
  | dockerRefreshMsg (data : List TableData)
  | windowSizeMsg (width height : Int)
  | keyMsg (key : String)
  deriving DecidableEq

/-- The commands `Update` can return (`tea.Cmd` values built in `tui.go`).
Each constructor records the arguments captured at dispatch time. -/
inductive Cmd where
  | none
  | quit
  | refreshDockerData
  | loadDeployments
  | loadPodDetails (podName nsName : String)
  | deployImageToPod (imageName deploymentName nsName : String)
  | createNewDeployment (imageName : String)
  | deleteDockerImage (imageID : String)
  | pullDockerImage (imageTag : String)
  deriving DecidableEq

/-- Go list indexing `l[i]` with an `int` index: `none` models the run-time
panic on an out-of-range (in particular negative) index. -/
def goIndex {α : Type} (l : List α) (i : Int) : Option α :=
  if 0 ≤ i then l[i.toNat]? else Option.none

/-- Go `strings.LastIndex s (String c)` for a single character: the index of
the last occurrence, or `-1`. -/
def lastIndexOfChar (s : String) (c : Char) : Int :=
  match s.data.reverse.findIdx? (· = c) with
  | some i => (s.data.length : Int) - 1 - (i : Int)
  | Option.none => -1

/-- The repository/tag split applied to `ImageTag` in the Docker branch of
`updateTableForTab` (`tui.go` lines 359-381). -/
def parseRepoTag (imageTag0 : String) : String × String :=
  if 0 < imageTag0.data.length ∧ imageTag0 ≠ "N/A" then
    let imageTag :=
      if "localhost:5000/".data.isPrefixOf imageTag0.data then
        (⟨imageTag0.data.drop "localhost:5000/".data.length⟩ : String)
      else imageTag0
    let lastColonIndex := lastIndexOfChar imageTag ':'
    if 0 < lastColonIndex then
      (⟨imageTag.data.take lastColonIndex.toNat⟩,
       ⟨imageTag.data.drop (lastColonIndex.toNat + 1)⟩)
    else (imageTag, "latest")
  else ("N/A", "N/A")

/-- Git-tab row projection (`tui.go` lines 334-341). -/
def gitRow (item : TableData) : List String :=
  [item.CommitSHA, truncateStringTotal item.PRDescription 40, "N/A", item.PushedAt]

/-- Docker-tab row projection (`tui.go` lines 359-389). -/
def dockerRow (item : TableData) : List String :=
  let rt := parseRepoTag item.ImageTag
  [truncateStringTotal item.ImageID 20, truncateStringTotal rt.1 30,
   truncateStringTotal rt.2 15, truncateStringTotal item.ImageSize 12,
   truncateStringTotal item.CreatedAt 25]

/-- Kubernetes-tab row projection (`tui.go` lines 401-409). -/
def kubesRow (item : TableData) : List String :=
  [truncateStringTotal item.PodName 35, item.Namespace, item.Status,
   item.Restarts, item.Age, truncateStringTotal item.NodeName 20]

/-- Git-tab column schema (`tui.go` lines 327-332). -/
def gitColumns : List (String × Nat) :=
  [("Commit SHA", 42), ("PR Description", 40), ("Author", 20), ("PushedAt", 20)]

/-- Docker-tab column schema (`tui.go` lines 352-358). -/
def dockerColumns : List (String × Nat) :=
  [("Image ID", 20), ("Repository", 30), ("Tag", 15), ("Size", 12), ("Created", 25)]

/-- Kubernetes-tab column schema (`tui.go` lines 392-399). -/
def kubesColumns : List (String × Nat) :=
  [("Pod Name", 35), ("Namespace", 15), ("Status", 12), ("Restarts", 10),
   ("Age", 15), ("Node", 20)]

/-- Column set per active tab in `updateTableForTab` (default branch falls
back to the Git schema, `tui.go` lines 411-418). -/
def tabColumns (activeTab : Nat) : List (String × Nat) :=
  match activeTab with
  | 0 => gitColumns
  | 1 => dockerColumns
  | 2 => kubesColumns
  | _ => gitColumns

/-- Row set per active tab in `updateTableForTab` (`tui.go` lines 325-427).
The Git branch inserts a placeholder row when the cached data is empty; the
default branch does not. -/
def tabRows (activeTab : Nat) (gitData dockerData kubesData : List TableData) :
    List (List String) :=
  match activeTab with
  | 0 =>
    if 0 < gitData.length then gitData.map gitRow
    else [["No data available", "", "", ""]]
  | 1 => dockerData.map dockerRow
  | 2 => kubesData.map kubesRow
  | _ => gitData.map gitRow

/-- `updateTableForTab` (`tui.go` lines 307-455): re-derive the widget's
columns and rows from the cached domain data for the active tab.  The Go
guard `m.table.Columns() == nil` is the `isEmpty` test; `SetColumns` runs
because every schema is non-empty, and the defensive `recover` wrappers never
fire on this path. -/
def updateTableForTab (m : Model) : Model :=
  if m.table.columns.isEmpty then m
  else
    let columns := tabColumns m.activeTab
    let rows := tabRows m.activeTab m.gitData m.dockerData m.kubesData
    let t := if 0 < columns.length then { m.table with columns := columns } else m.table
    { m with table := { t with rows := rows } }

/-- The fixed key order of the workload-detail projection
(`tui.go` lines 706-714). -/
def orderedKeys : List String :=
  ["Name", "Namespace", "Status", "Node", "Pod IP", "Host IP",
   "Created", "Start Time", "Service Account", "Restart Policy", "DNS Policy",
   "Container Name", "Container Image", "Image Pull Policy", "Container Ports",
   "CPU Request", "Memory Request", "CPU Limit", "Memory Limit",
   "Container Ready", "Restart Count", "Container ID",
   "Ready Condition", "Scheduled Condition", "Initialized Condition",
   "Labels", "Annotations"]

/-- The row list built by `initPodDefTable` (`tui.go` lines 702-738): for a
non-nil detail map, ordered keys with non-empty values first, then the
remaining keys with non-empty values (the Go map range is determinized to the
association-list order); for a nil map, a single error row. -/
def podDefRows (details : Option (List (String × String))) : List (List String) :=
  match details with
  | some d =>
    (orderedKeys.filterMap fun k =>
      match d.find? (fun p => p.1 = k) with
      | some p => if p.2 ≠ "" then some [k, truncateStringTotal p.2 70] else Option.none
      | Option.none => Option.none)
    ++ d.filterMap (fun p =>
        if ¬ orderedKeys.contains p.1 ∧ p.2 ≠ "" then
          some [p.1, truncateStringTotal p.2 70]
        else Option.none)
  | Option.none => [["Error", "Failed to load pod details"]]

/-- Columns of the detail table (`tui.go` lines 697-700). -/
def podDefColumns : List (String × Nat) := [("Key", 35), ("Value", 70)]

/-- `initPodDefTable` (`tui.go` lines 696-758): build a fresh detail table
(`table.New` with height 20, cursor at the first row). -/
def initPodDefTable (m : Model) (details : Option (List (String × String))) : Model :=
  { m with podDefTable :=
      { cursor := 0, columns := podDefColumns, rows := podDefRows details,
        width := 0, height := 20 } }

/-- The bottom of `Update` (`tui.go` lines 298-304): unhandled key messages
are forwarded to whichever table widget is visible; `tableStep` is the
widget's opaque `Update` method. -/
def tableFallthrough (tableStep : String → TableModel → TableModel)
    (m : Model) (k : String) : Model :=
  if m.showPodDef then { m with podDefTable := tableStep k m.podDefTable }
  else { m with table := tableStep k m.table }

/-- The `tea.KeyMsg` arm of `Update` (`tui.go` lines 144-295).  The result is
`none` exactly when the Go code would panic (indexing `deployments` with a
negative index in the confirmation-commit branch). -/
def keyUpdate (ts : String → TableModel → TableModel) (m : Model) (k : String) :
    Option (Model × Cmd) :=
  if k = "ctrl+c" ∨ k = "q" then
    some ({ m with quitting := true }, Cmd.quit)
  else if k = "1" then
    if m.showModal then
      if m.modalStep = 0 then
        if m.selectedDeployment = -1 then some ({ m with modalStep := 1 }, Cmd.none)
        else some ({ m with modalStep := 2 }, Cmd.none)
      else if m.modalStep = 1 then
        some ({ m with showModal := false, modalStep := 0 },
          Cmd.createNewDeployment m.selectedImage)
      else
        let m' := { m with showModal := false, modalStep := 0 }
        if 0 < m'.deployments.length ∧
            m'.selectedDeployment < (m'.deployments.length : Int) then
          match goIndex m'.deployments m'.selectedDeployment with
          | some dep =>
            some (m', Cmd.deployImageToPod m'.selectedImage dep.PodName dep.Namespace)
          | Option.none => Option.none
        else some (m', Cmd.none)
    else
      some (updateTableForTab { m with activeTab := 0 }, Cmd.none)
  else if k = "2" then
    if m.showModal then
      if m.modalStep = 1 then some ({ m with modalStep := 0 }, Cmd.none)
      else if m.modalStep = 2 then some ({ m with modalStep := 0 }, Cmd.none)
      else some ({ m with showModal := false, modalStep := 0 }, Cmd.none)
    else some (updateTableForTab { m with activeTab := 1 }, Cmd.none)
  else if k = "3" then
    if m.showModal then some (m, Cmd.none)
    else some (updateTableForTab { m with activeTab := 2 }, Cmd.none)
  else if k = "tab" then
    some (updateTableForTab { m with activeTab := (m.activeTab + 1) % m.tabs.length },
      Cmd.none)
  else if k = "enter" then
    if m.activeTab = 1 ∧ 0 < m.dockerData.length then
      if m.table.cursor < m.dockerData.length then
        let imageData := m.dockerData.getD m.table.cursor {}
        let si := imageData.ImageTag
        let si := if si = "" then imageData.ImageID else si
        some ({ m with
          selectedImage := si, modalStep := 0, selectedDeployment := -1,
          selectedPod2 := 0, showModal := true }, Cmd.loadDeployments)
      else some (m, Cmd.none)
    else if m.activeTab = 2 ∧ 0 < m.kubesData.length then
      if m.table.cursor < m.kubesData.length then
        let row := m.kubesData.getD m.table.cursor {}
        some ({ m with
          selectedPod := row.PodName, selectedPodNS := row.Namespace,
          showPodDef := true }, Cmd.loadPodDetails row.PodName row.Namespace)
      else some (m, Cmd.none)
    else some (m, Cmd.none)
  else if k = "esc" then
    if m.showModal then some ({ m with showModal := false, modalStep := 0 }, Cmd.none)
    else if m.showPodDef then some ({ m with showPodDef := false }, Cmd.none)
    else some ({ m with quitting := true }, Cmd.quit)
  else if k = "up" ∨ k = "k" then
    if m.showModal ∧ m.modalStep = 0 then
      if 0 < m.deployments.length ∧ -1 < m.selectedDeployment then
        some ({ m with selectedDeployment := m.selectedDeployment - 1 }, Cmd.none)
      else some (m, Cmd.none)
    else some (tableFallthrough ts m k, Cmd.none)
  else if k = "down" ∨ k = "j" then
    if m.showModal ∧ m.modalStep = 0 then
      if 0 < m.deployments.length ∧
          m.selectedDeployment < (m.deployments.length : Int) - 1 then
        some ({ m with selectedDeployment := m.selectedDeployment + 1 }, Cmd.none)
      else some (m, Cmd.none)
    else some (tableFallthrough ts m k, Cmd.none)
  else if k = "ctrl+d" then
    if m.activeTab = 1 ∧ 0 < m.dockerData.length ∧ m.showModal = false then
      if m.table.cursor < m.dockerData.length then
        some (m, Cmd.deleteDockerImage (m.dockerData.getD m.table.cursor {}).ImageID)
      else some (tableFallthrough ts m k, Cmd.none)
    else some (tableFallthrough ts m k, Cmd.none)
  else if k = "ctrl+p" then
    if m.activeTab = 1 ∧ 0 < m.dockerData.length ∧ m.showModal = false then
      if m.table.cursor < m.dockerData.length then
        let imageTag := (m.dockerData.getD m.table.cursor {}).ImageTag
        if imageTag ≠ "" ∧ imageTag ≠ "N/A" then
          some (m, Cmd.pullDockerImage imageTag)
        else some (tableFallthrough ts m k, Cmd.none)
      else some (tableFallthrough ts m k, Cmd.none)
    else some (tableFallthrough ts m k, Cmd.none)
  else
    some (tableFallthrough ts m k, Cmd.none)

/-- `Update` from `tui.go` lines 82-305: one controller transition.
`ts` is the opaque `Update` of the external table widget, applied by the
fall-through at the bottom of the function.  `none` models a Go panic. -/
def update (ts : String → TableModel → TableModel) (m : Model) (msg : Msg) :
    Option (Model × Cmd) :=
  match msg with
  | Msg.deploymentsMsg ds => some ({ m with deployments := ds }, Cmd.none)
  | Msg.deploymentPodsMsg pods => some ({ m with deploymentPods := pods }, Cmd.none)
  | Msg.podDetailsMsg details errIsNil =>
    if errIsNil then some (initPodDefTable m details, Cmd.none)
    else some (initPodDefTable m Option.none, Cmd.none)
  | Msg.dockerDeleteMsg success _ _ =>
    if success then some (m, Cmd.refreshDockerData) else some (m, Cmd.none)
  | Msg.dockerPullMsg success _ _ =>
    if success then some (m, Cmd.refreshDockerData) else some (m, Cmd.none)
  | Msg.deploymentMsg success _ =>
    if success then
      some ({ m with table := { m.table with cursor := 0 } }, Cmd.loadDeployments)
    else some (m, Cmd.none)
  | Msg.dockerRefreshMsg data =>
    let m := { m with dockerData := data }
    if m.activeTab = 1 then some (updateTableForTab m, Cmd.none)
    else some (m, Cmd.none)
  | Msg.windowSizeMsg w h =>
    let m := { m with
      width := w, height := h,
      table := { m.table with width := w, height := h - 15 } }
    let m := if ¬ m.podDefTable.columns.isEmpty then
        { m with podDefTable := { m.podDefTable with width := w, height := h - 15 } }
      else m
    some (m, Cmd.none)
  | Msg.keyMsg k => keyUpdate ts m k

/-- The model built by `startTUI` (`tui.go` lines 894-943): Git tab active,
git rows projected (without the placeholder branch of `updateTableForTab`),
all remaining fields Go zero values. -/
def initialModel (gitData dockerData kubesData : List TableData) : Model :=
  { table := { cursor := 0, columns := gitColumns, rows := gitData.map gitRow,
               width := 0, height := 10 },
    quitting := false, activeTab := 0, tabs := ["Git", "Docker", "Kubernetes"],
    gitData := gitData, dockerData := dockerData, kubesData := kubesData,
    width := 0, height := 0, showModal := false, selectedImage := "",
    showPodDef := false, selectedPod := "", selectedPodNS := "",
    podDefTable := { cursor := 0, columns := [], rows := [], width := 0, height := 0 },
    deployments := [], selectedDeployment := 0, deploymentPods := [],
    selectedPod2 := 0, modalStep := 0 }

/-- The deployment name shown by the `modalStep == 1` branch of `renderModal`
(`tui.go` lines 562-580), which duplicates, line for line, the generator of
`createNewDeployment`. -/
def renderModalStep1Name (m : Model) : String :=
  generateDeploymentName m.selectedImage

/-- The `selectedDep` computation of the confirmation branch of `renderModal`
(`tui.go` lines 604-608); `none` models the panic on a negative
`selectedDeployment` index. -/
def confirmStepSelectedDep (m : Model) : Option String :=
  if 0 < m.deployments.length ∧ m.selectedDeployment < (m.deployments.length : Int) then
    (goIndex m.deployments m.selectedDeployment).map (·.PodName)
  else some ""

/-- A trivial instantiation of the external table widget's `Update`: used to
run the controller on concrete inputs where the fall-through is never hit or
its effect is irrelevant. -/
def idTableStep : String → TableModel → TableModel := fun _ t => t

/-- The model component of one controller transition (panic keeps the old
model; no transition below is ever a panic). -/
def stepModelT (ts : String → TableModel → TableModel) (m : Model) (msg : Msg) :
    Model :=
  match update ts m msg with
  | some p => p.1
  | Option.none => m

/-- The command component of one controller transition. -/
def stepCmdT (ts : String → TableModel → TableModel) (m : Model) (msg : Msg) :
    Cmd :=
  match update ts m msg with
  | some p => p.2
  | Option.none => Cmd.none

/-- `stepModelT` with the trivial widget. -/
def stepModel (m : Model) (msg : Msg) : Model := stepModelT idTableStep m msg

/-- `stepCmdT` with the trivial widget. -/
def stepCmd (m : Model) (msg : Msg) : Cmd := stepCmdT idTableStep m msg

/-- Run a sequence of key events through the controller. -/
def runKeys (ts : String → TableModel → TableModel) (m : Model)
    (ks : List String) : Model :=
  ks.foldl (fun st k => stepModelT ts st (Msg.keyMsg k)) m

/-- The commands issued along a sequence of key events. -/
def cmdsOfKeys (ts : String → TableModel → TableModel) :
    Model → List String → List Cmd
  | _, [] => []
  | m, k :: ks => stepCmdT ts m (Msg.keyMsg k) :: cmdsOfKeys ts (stepModelT ts m (Msg.keyMsg k)) ks

/-- The four tab-select inputs: direct keys "1".."3" and the Tab cycle. -/
def isTabSelectKey (k : String) : Bool :=
  k = "1" || k = "2" || k = "3" || k = "tab"

/-- The tab a single tab-select key moves to from state `m`
(`tui.go` lines 177-218). -/
def tabTarget (m : Model) (k : String) : Nat :=
  if k = "1" then 0
  else if k = "2" then 1
  else if k = "3" then 2
  else (m.activeTab + 1) % m.tabs.length

/-- The cursor/step invariant of the modal wizard: the candidate cursor never
drops below the sentinel `-1`, the wizard step stays in `{0, 1, 2}`, and in
the confirmation step the cursor is a real candidate index (`≥ 0`). -/
def Inv (m : Model) : Prop :=
  -1 ≤ m.selectedDeployment ∧ m.modalStep ≤ 2 ∧
    (m.modalStep = 2 → 0 ≤ m.selectedDeployment)

instance (m : Model) : Decidable (Inv m) := by
  unfold Inv; infer_instance

/-- The image row of the wizard scenario: `{id:"abc123", tag:"localhost:5000/app:v1"}`. -/
def cTwoImageRow : TableData :=
  { ImageID := "abc123", ImageTag := "localhost:5000/app:v1" }

/-- Start state of the wizard scenario: Docker tab active, the single image
row cached, cursor on it. -/
def cTwoStart : Model := { initialModel [] [cTwoImageRow] [] with activeTab := 1 }

/-- After pressing Enter on the image row: modal open at SelectTarget. -/
def cTwoOpen : Model := stepModel cTwoStart (Msg.keyMsg "enter")

/-- After `ListWorkloads` returns zero workloads. -/
def cTwoLoaded : Model := stepModel cTwoOpen (Msg.deploymentsMsg [])

/-- After pressing "1": the create-confirmation step. -/
def cTwoConfirm : Model := stepModel cTwoLoaded (Msg.keyMsg "1")

/-- A concrete state with the deploy modal open (used to exercise the quit
keys and Esc with a modal open). -/
def modalOpenC1 : Model :=
  { initialModel [] [{ ImageID := "abc123", ImageTag := "img" }] [] with
    activeTab := 1, showModal := true, selectedImage := "img" }

/-- A concrete modal-open state with a non-default candidate selection (used
to exercise what closing the modal does to the transient selection fields). -/
def modalOpenC8 : Model :=
  { initialModel [] [{ ImageID := "abc123", ImageTag := "img" }] []  with
    activeTab := 1, showModal := true, selectedImage := "img",
    selectedDeployment := 1,
    deployments := [{ PodName := "w0", Namespace := "default" },
                    { PodName := "w1", Namespace := "default" }] }

/-- A concrete detail map with one ordered key, one extra key, and one key
with an empty value. -/
def sampleDetails : List (String × String) :=
  [("Name", "pod-a"), ("Custom", "x"), ("Labels", "")]

/-! ## Theorems -/

/-- For widths at least 3 — all widths the repository passes — the panicking
and total truncation variants agree. -/
theorem truncateString_eq_total (s : String) (maxLen : Int) (h : 3 ≤ maxLen) :
    truncateString s maxLen = some (truncateStringTotal s maxLen) := by
  unfold truncateString truncateStringTotal
  split
  · rfl
  · rw [if_neg (by omega)]


/-- C5: a Delete-image or Pull-image completion that reports failure leaves
the whole model (in particular the Image row collection) unchanged and issues
no command; a success completion leaves the model unchanged and issues the
image-refresh command. -/
theorem deleteOrPullCompletion_refresh (ts : String → TableModel → TableModel)
    (m : Model) (s : Bool) (imageID imageTag : String) (e e' : Bool) :
    update ts m (Msg.dockerDeleteMsg s imageID e) =
      some (m, if s then Cmd.refreshDockerData else Cmd.none) ∧
    update ts m (Msg.dockerPullMsg s imageTag e') =
      some (m, if s then Cmd.refreshDockerData else Cmd.none) := by
  cases s <;> simp [update]

/-- C6: a successful CreateWorkload/UpdateWorkload completion
(`deploymentMsg` with `success`) resets the main table cursor to the first
row and issues the `loadDeployments` (ListWorkloads) refresh command. -/
theorem deploymentCompletion_success_resetsCursor_and_refreshes
    (ts : String → TableModel → TableModel) (m : Model) (e : Bool) :
    update ts m (Msg.deploymentMsg true e) =
      some ({ m with table := { m.table with cursor := 0 } }, Cmd.loadDeployments) := by
  simp [update]

/-- C1 counterexample: with the deploy modal open, pressing "q" immediately
sets `quitting` and returns the quit command — the quit keys do *not* wait
for the modal to be closed first. -/
theorem quitKey_fires_with_modal_open :
    modalOpenC1.showModal = true ∧
    (stepModel modalOpenC1 (Msg.keyMsg "q")).quitting = true ∧
    stepCmd modalOpenC1 (Msg.keyMsg "q") = Cmd.quit := by decide

/-- C1 (amended): the quit keys ("q"/ctrl-c) transition to Quit in every
state, even with a modal or detail view open; a single Esc closes an open
modal (or, failing that, an open detail view) without quitting, and Esc quits
exactly when neither is open. -/
theorem quit_and_esc_transitions (ts : String → TableModel → TableModel)
    (m : Model) :
    update ts m (Msg.keyMsg "q") = some ({ m with quitting := true }, Cmd.quit) ∧
    update ts m (Msg.keyMsg "ctrl+c") = some ({ m with quitting := true }, Cmd.quit) ∧
    (m.showModal = true →
      update ts m (Msg.keyMsg "esc") =
        some ({ m with showModal := false, modalStep := 0 }, Cmd.none)) ∧
    (m.showModal = false → m.showPodDef = true →
      update ts m (Msg.keyMsg "esc") =
        some ({ m with showPodDef := false }, Cmd.none)) ∧
    (m.showModal = false → m.showPodDef = false →
      update ts m (Msg.keyMsg "esc") =
        some ({ m with quitting := true }, Cmd.quit)) := by
  refine ⟨rfl, rfl, fun h1 => ?_, fun h1 h2 => ?_, fun h1 h2 => ?_⟩ <;>
    simp [update, keyUpdate, h1, *]

/-- C1 amended witness: the amended transitions at concrete states. -/
theorem quit_and_esc_transitions_witness :
    modalOpenC1.showModal = true ∧
    update idTableStep modalOpenC1 (Msg.keyMsg "esc") =
      some ({ modalOpenC1 with showModal := false, modalStep := 0 }, Cmd.none) ∧
    (initialModel [] [] []).showModal = false ∧
    (initialModel [] [] []).showPodDef = false ∧
    update idTableStep (initialModel [] [] []) (Msg.keyMsg "esc") =
      some ({ initialModel [] [] [] with quitting := true }, Cmd.quit) :=
  ⟨rfl, (quit_and_esc_transitions idTableStep modalOpenC1).2.2.1 rfl,
   rfl, rfl,
   (quit_and_esc_transitions idTableStep (initialModel [] [] [])).2.2.2.2 rfl rfl⟩

/-- C4: the modal step machine never skips.  From SelectTarget (step 0),
pressing "1" reaches exactly CreateConfirm (step 1) when the highlighted
candidate is the "create new" sentinel (index -1) and exactly UpdateConfirm
(step 2) otherwise, with the modal still open and no command; from either
confirmation step, the Back key "2" reaches exactly SelectTarget (step 0)
with the modal still open and no command. -/
theorem modalStep_machine_no_skip (ts : String → TableModel → TableModel)
    (m m' : Model) (c : Cmd) :
    (m.showModal = true → m.modalStep = 0 →
      update ts m (Msg.keyMsg "1") = some (m', c) →
      m'.showModal = true ∧ c = Cmd.none ∧
        (m.selectedDeployment = -1 → m'.modalStep = 1) ∧
        (m.selectedDeployment ≠ -1 → m'.modalStep = 2)) ∧
    (m.showModal = true → (m.modalStep = 1 ∨ m.modalStep = 2) →
      update ts m (Msg.keyMsg "2") = some (m', c) →
      m'.showModal = true ∧ m'.modalStep = 0 ∧ c = Cmd.none) := by
  constructor
  · intro h1 h2 h3
    by_cases hsd : m.selectedDeployment = -1 <;>
      simp [update, keyUpdate, h1, h2, hsd] at h3 <;>
      simp [← h3.1, ← h3.2, hsd]
  · intro h1 h2 h3
    rcases h2 with h2 | h2 <;>
      simp [update, keyUpdate, h1, h2] at h3 <;>
      simp [← h3.1, ← h3.2, h1]

/-- C4 witness: the step-machine transitions instantiated at a concrete
modal state (advance from SelectTarget with a real candidate highlighted,
then Back from UpdateConfirm). -/
theorem modalStep_machine_no_skip_witness :
    (({ modalOpenC1 with modalStep := 2 } : Model).showModal = true ∧
      Cmd.none = Cmd.none ∧
      (modalOpenC1.selectedDeployment = -1 →
        ({ modalOpenC1 with modalStep := 2 } : Model).modalStep = 1) ∧
      (modalOpenC1.selectedDeployment ≠ -1 →
        ({ modalOpenC1 with modalStep := 2 } : Model).modalStep = 2)) ∧
    (modalOpenC1.showModal = true ∧ modalOpenC1.modalStep = 0 ∧
      Cmd.none = Cmd.none) :=
  ⟨(modalStep_machine_no_skip idTableStep modalOpenC1
      { modalOpenC1 with modalStep := 2 } Cmd.none).1 rfl rfl (by decide),
   (modalStep_machine_no_skip idTableStep { modalOpenC1 with modalStep := 2 }
      modalOpenC1 Cmd.none).2 rfl (Or.inr rfl) (by decide)⟩

/-- C8 counterexample: closing the modal with Esc does *not* clear the
transient selection fields — at a concrete modal state with candidate index 1
and a chosen image "img", after Esc the modal is closed but both fields still
hold their old values. -/
theorem modalClose_does_not_clear_selection :
    modalOpenC8.showModal = true ∧
    (stepModel modalOpenC8 (Msg.keyMsg "esc")).showModal = false ∧
    (stepModel modalOpenC8 (Msg.keyMsg "esc")).selectedDeployment = 1 ∧
    (stepModel modalOpenC8 (Msg.keyMsg "esc")).selectedImage = "img" ∧
    ¬ (stepModel modalOpenC8 (Msg.keyMsg "esc")).selectedDeployment = -1 ∧
    ¬ (stepModel modalOpenC8 (Msg.keyMsg "esc")).selectedDeployment = 0 ∧
    ¬ (stepModel modalOpenC8 (Msg.keyMsg "esc")).selectedImage = "" := by decide

/-- C8 (amended): every transition that closes (or steps) the modal — Esc,
key "2", key "1" — leaves the transient selection fields (`selectedImage`,
`selectedDeployment`) unchanged; the fields are instead re-initialised when
the modal opens (Enter on the Images tab sets the candidate index to the
sentinel -1 and captures the selected row's image identifier). -/
theorem modal_selection_fields_persist (ts : String → TableModel → TableModel)
    (m m' : Model) (c : Cmd) :
    (m.showModal = true → update ts m (Msg.keyMsg "esc") = some (m', c) →
      m'.selectedImage = m.selectedImage ∧
        m'.selectedDeployment = m.selectedDeployment) ∧
    (m.showModal = true → update ts m (Msg.keyMsg "2") = some (m', c) →
      m'.selectedImage = m.selectedImage ∧
        m'.selectedDeployment = m.selectedDeployment) ∧
    (m.showModal = true → update ts m (Msg.keyMsg "1") = some (m', c) →
      m'.selectedImage = m.selectedImage ∧
        m'.selectedDeployment = m.selectedDeployment) ∧
    (m.activeTab = 1 → 0 < m.dockerData.length →
      m.table.cursor < m.dockerData.length →
      update ts m (Msg.keyMsg "enter") = some (m', c) →
      m'.showModal = true ∧ m'.selectedDeployment = -1 ∧
        m'.selectedImage =
          (if (m.dockerData.getD m.table.cursor {}).ImageTag = "" then
            (m.dockerData.getD m.table.cursor {}).ImageID
          else (m.dockerData.getD m.table.cursor {}).ImageTag)) := by
  refine ⟨fun h1 h3 => ?_, fun h1 h3 => ?_, fun h1 h3 => ?_, fun h1 h2 h2' h3 => ?_⟩
  · simp [update, keyUpdate, h1] at h3
    simp [← h3.1]
  · by_cases hm1 : m.modalStep = 1
    · simp [update, keyUpdate, h1, hm1] at h3
      simp [← h3.1]
    · by_cases hm2 : m.modalStep = 2 <;>
        simp [update, keyUpdate, h1, hm1, hm2] at h3 <;>
        simp [← h3.1]
  · by_cases h0 : m.modalStep = 0
    · by_cases hsd : m.selectedDeployment = -1 <;>
        simp [update, keyUpdate, h1, h0, hsd] at h3 <;>
        simp [← h3.1, hsd]
    · by_cases hm1 : m.modalStep = 1
      · simp [update, keyUpdate, h1, h0, hm1] at h3
        simp [← h3.1]
      · simp [update, keyUpdate, h1, h0, hm1] at h3
        split at h3
        · split at h3
          · simp at h3
            simp [← h3.1]
          · exact absurd h3 (by simp)
        · simp at h3
          simp [← h3.1]
  · simp [update, keyUpdate, h1, h2, h2'] at h3
    simp [← h3.1, List.getD, List.getElem?_eq_getElem h2']

/-- C8 amended witness: the persistence of the selection fields across Esc at
a concrete modal state, and the re-initialisation on open at a concrete
Images-tab state. -/
theorem modal_selection_fields_persist_witness :
    ((stepModel modalOpenC8 (Msg.keyMsg "esc")).selectedImage =
        modalOpenC8.selectedImage ∧
      (stepModel modalOpenC8 (Msg.keyMsg "esc")).selectedDeployment =
        modalOpenC8.selectedDeployment) ∧
    (cTwoOpen.showModal = true ∧ cTwoOpen.selectedDeployment = -1 ∧
      cTwoOpen.selectedImage =
        (if (cTwoStart.dockerData.getD cTwoStart.table.cursor {}).ImageTag = "" then
          (cTwoStart.dockerData.getD cTwoStart.table.cursor {}).ImageID
        else (cTwoStart.dockerData.getD cTwoStart.table.cursor {}).ImageTag)) :=
  ⟨(modal_selection_fields_persist idTableStep modalOpenC8
      (stepModel modalOpenC8 (Msg.keyMsg "esc")) Cmd.none).1 rfl (by decide),
   (modal_selection_fields_persist idTableStep cTwoStart cTwoOpen
      Cmd.loadDeployments).2.2.2 rfl (by decide) (by decide) (by decide)⟩

/-- C2 counterexample: in the scenario (image row `{id:"abc123",
tag:"localhost:5000/app:v1"}`, zero workloads, "1", "1"), the generated
workload name is `"localhost-5000-app-v1"` — the generator runs on the full
image reference including the `localhost:5000/` registry part — not the
claimed `"app-v1"`, and the dispatched create call carries that name. -/
theorem wizard_generated_name_not_app_v1 :
    renderModalStep1Name cTwoConfirm = "localhost-5000-app-v1" ∧
    stepCmd cTwoConfirm (Msg.keyMsg "1") =
      Cmd.createNewDeployment "localhost:5000/app:v1" ∧
    createNewDeploymentCall "localhost:5000/app:v1" =
      ("localhost:5000/app:v1", "localhost-5000-app-v1", "default") ∧
    ¬ renderModalStep1Name cTwoConfirm = "app-v1" ∧
    ¬ createNewDeploymentCall "localhost:5000/app:v1" =
        ("localhost:5000/app:v1", "app-v1", "default") := by decide

/-- C2 (amended): in the scenario, SelectTarget shows only the "create new"
sentinel selected by default (candidate list empty, cursor -1); pressing "1"
advances to CreateConfirm with generated name `"localhost-5000-app-v1"`
(lower-case, `:`→`-`, `/`→`-`, `_`→`-`, `.`→`-`, trim `-`, default name if
empty/"latest", `"app-"` prefix if not starting with a lowercase letter);
pressing "1" again dispatches the create command, which calls
`CreateWorkload("localhost:5000/app:v1", "localhost-5000-app-v1",
"default")`. -/
theorem wizard_create_flow :
    stepCmd cTwoStart (Msg.keyMsg "enter") = Cmd.loadDeployments ∧
    cTwoOpen.showModal = true ∧ cTwoOpen.modalStep = 0 ∧
    cTwoOpen.selectedImage = "localhost:5000/app:v1" ∧
    cTwoOpen.selectedDeployment = -1 ∧
    cTwoLoaded.deployments = [] ∧ cTwoLoaded.selectedDeployment = -1 ∧
    cTwoLoaded.modalStep = 0 ∧
    cTwoConfirm.modalStep = 1 ∧ cTwoConfirm.showModal = true ∧
    stepCmd cTwoLoaded (Msg.keyMsg "1") = Cmd.none ∧
    renderModalStep1Name cTwoConfirm = "localhost-5000-app-v1" ∧
    stepCmd cTwoConfirm (Msg.keyMsg "1") =
      Cmd.createNewDeployment "localhost:5000/app:v1" ∧
    (stepModel cTwoConfirm (Msg.keyMsg "1")).showModal = false ∧
    createNewDeploymentCall "localhost:5000/app:v1" =
      ("localhost:5000/app:v1", "localhost-5000-app-v1", "default") := by decide

/-- C3 counterexample: for width 2 (< 3) and the 6-character string
"abcdef", `truncateString` slices with a negative bound and panics (Go
`s[:maxLen-3]` with `maxLen-3 = -1`), so it returns no string at all — the
claimed idempotence/bound equations fail for this (s, w). -/
theorem truncateString_panics_below_width3 :
    truncateString "abcdef" 2 = Option.none ∧
    ¬ ∃ t, truncateString "abcdef" 2 = some t ∧ (t.data.length : Int) ≤ 2 ∧
        truncateString t 2 = some t := by
  refine ⟨by decide, ?_⟩
  rintro ⟨t, h, -⟩
  rw [show truncateString "abcdef" 2 = Option.none from by decide] at h
  exact Option.noConfusion h

/-- C3 (amended): for every string `s` and every width `w ≥ 3` (all widths
used by the repository are ≥ 12), truncation succeeds, is bounded by `w`,
is idempotent, returns `s` unchanged when `len s ≤ w`, and otherwise keeps
exactly `w-3` characters and appends the 3-character ellipsis marker (which
counts toward the width budget: the result has length exactly `w`).
For `w < 3` and `len s > w` the function faults (see the counterexample). -/
theorem truncateString_idempotent_bounded (s : String) (w : Int) (h : 3 ≤ w) :
    ∃ t, truncateString s w = some t ∧ (t.data.length : Int) ≤ w ∧
      truncateString t w = some t ∧
      ((s.data.length : Int) ≤ w → t = s) ∧
      (w < (s.data.length : Int) →
        t.data = s.data.take (w - 3).toNat ++ "...".data ∧
          (t.data.length : Int) = w) := by
  by_cases hle : (s.data.length : Int) ≤ w
  · refine ⟨s, ?_, hle, ?_, fun _ => rfl, fun hlt => absurd hlt (by omega)⟩
    · unfold truncateString
      rw [if_pos hle]
    · unfold truncateString
      rw [if_pos hle]
  · have hlen : ((⟨s.data.take (w - 3).toNat⟩ : String) ++ "...").data =
        s.data.take (w - 3).toNat ++ "...".data := rfl
    have htake : (s.data.take (w - 3).toNat).length = (w - 3).toNat := by
      rw [List.length_take]
      omega
    have hlen3 : (((⟨s.data.take (w - 3).toNat⟩ : String) ++ "...").data.length : Int)
        = w := by
      rw [hlen, List.length_append, htake]
      have : ("...".data.length) = 3 := by decide
      rw [this]
      omega
    refine ⟨(⟨s.data.take (w - 3).toNat⟩ : String) ++ "...", ?_, by omega, ?_,
      fun hc => absurd hc hle, fun _ => ⟨hlen, hlen3⟩⟩
    · simp only [truncateString, if_neg hle, if_neg (by omega : ¬ w - 3 < 0)]
    · simp only [truncateString]
      rw [if_pos (by omega : ((((⟨s.data.take (w - 3).toNat⟩ : String) ++
        "...").data.length : Int)) ≤ w)]

/-- C3 amended witness: the truncation properties at `s = "hello world!"`,
`w = 5`. -/
theorem truncateString_idempotent_bounded_witness :
    (3 : Int) ≤ 5 ∧
    ∃ t, truncateString "hello world!" 5 = some t ∧
      (t.data.length : Int) ≤ 5 ∧ truncateString t 5 = some t ∧
      ((("hello world!" : String).data.length : Int) ≤ 5 → t = "hello world!") ∧
      ((5 : Int) < (("hello world!" : String).data.length : Int) →
        t.data = ("hello world!" : String).data.take ((5 : Int) - 3).toNat ++
            "...".data ∧ (t.data.length : Int) = 5) :=
  ⟨by norm_num, truncateString_idempotent_bounded "hello world!" 5 (by norm_num)⟩

/-- In an association list with distinct keys (a Go map), `find?` on a key
returns exactly the pair stored under that key. -/
theorem find_eq_of_nodup_keys {d : List (String × String)} {k v : String}
    (hnd : (d.map Prod.fst).Nodup) (hmem : (k, v) ∈ d) :
    d.find? (fun p => p.1 = k) = some (k, v) := by
  induction d with
  | nil => cases hmem
  | cons a tl ih =>
    simp only [List.map_cons, List.nodup_cons] at hnd
    rcases List.mem_cons.mp hmem with h | hmem'
    · rw [← h]
      simp [List.find?_cons]
    · have hk : k ∈ tl.map Prod.fst := List.mem_map.mpr ⟨(k, v), hmem', rfl⟩
      have ha : ¬ (a.1 = k) := fun hak => hnd.1 (hak ▸ hk)
      simp only [List.find?_cons, ha, decide_eq_true_eq, if_neg]
      simp [ha]
      exact ih hnd.2 hmem'

/-- Distinct keys make the stored value unique. -/
theorem val_eq_of_nodup_keys {d : List (String × String)} {k v v' : String}
    (hnd : (d.map Prod.fst).Nodup) (h1 : (k, v) ∈ d) (h2 : (k, v') ∈ d) :
    v = v' := by
  have e1 := find_eq_of_nodup_keys hnd h1
  have e2 := find_eq_of_nodup_keys hnd h2
  rw [e1] at e2
  cases e2
  rfl

/-- C7 counterexample: a *success* detail completion whose map has no
non-empty values (here: the empty map) is processed into an *empty* detail
row set — the detail view can be left empty, so "never left empty" fails. -/
theorem podDetails_success_can_leave_view_empty :
    (stepModel (initialModel [] [] [])
        (Msg.podDetailsMsg (some []) true)).podDefTable.rows = [] := by decide

/-- C7 (amended): processing a workload-detail completion fills the detail
table as follows — on failure (or a nil map) a single error row; on success
the fixed ordered keys first, in declared order, followed by the remaining
keys, with empty-valued keys omitted entirely; and the row set is non-empty
provided the map holds at least one key with a non-empty value (which both
repository detail fetchers guarantee).  A success map with no non-empty
value yields an empty view (see the counterexample). -/
theorem podDetails_completion_total (ts : String → TableModel → TableModel)
    (m m' : Model) (c : Cmd) (details : Option (List (String × String)))
    (errIsNil : Bool) :
    (update ts m (Msg.podDetailsMsg details errIsNil) = some (m', c) →
      m'.podDefTable.rows =
        podDefRows (if errIsNil then details else Option.none)) ∧
    podDefRows Option.none = [["Error", "Failed to load pod details"]] ∧
    (∀ d : List (String × String),
      podDefRows (some d) =
        (orderedKeys.filterMap fun k =>
          match d.find? (fun p => p.1 = k) with
          | some p =>
            if p.2 ≠ "" then some [k, truncateStringTotal p.2 70] else Option.none
          | Option.none => Option.none)
        ++ d.filterMap (fun p =>
            if ¬ orderedKeys.contains p.1 ∧ p.2 ≠ "" then
              some [p.1, truncateStringTotal p.2 70]
            else Option.none)) ∧
    (∀ d : List (String × String), (d.map Prod.fst).Nodup →
      (∀ k v, (k, v) ∈ d → v = "" →
        ∀ row ∈ podDefRows (some d), row.head? ≠ some k) ∧
      ((∃ p ∈ d, p.2 ≠ "") → podDefRows (some d) ≠ [])) := by
  refine ⟨fun h3 => ?_, rfl, fun d => rfl, fun d hnd => ⟨?_, ?_⟩⟩
  · cases errIsNil <;>
      simp [update, initPodDefTable] at h3 <;>
      rw [← h3.1] <;>
      simp
  · intro k v hmem hv row hrow hhead
    rcases List.mem_append.mp hrow with hA | hB
    · rcases List.mem_filterMap.mp hA with ⟨k', _, hf⟩
      rcases hfind : d.find? (fun p => p.1 = k') with - | p
      · rw [hfind] at hf
        simp at hf
      · rw [hfind] at hf
        dsimp only at hf
        by_cases hp2 : p.2 ≠ ""
        · rw [if_pos hp2] at hf
          have hrow' : [k', truncateStringTotal p.2 70] = row :=
            Option.some.inj hf
          have hk'k : k' = k := by
            rw [← hrow'] at hhead
            simpa using hhead
          have hpk : p.1 = k' := by
            have := List.find?_some hfind
            simpa using this
          have hpmem : p ∈ d := List.mem_of_find?_eq_some hfind
          have : p.2 = v := by
            refine val_eq_of_nodup_keys hnd ?_ hmem
            rw [← hk'k, ← hpk]
            exact hpmem
          exact hp2 (by rw [this, hv])
        · rw [if_neg hp2] at hf
          cases hf
    · rcases List.mem_filterMap.mp hB with ⟨p, hpmem, hf⟩
      by_cases hcond : ¬ orderedKeys.contains p.1 ∧ p.2 ≠ ""
      · rw [if_pos hcond] at hf
        have hrow' : [p.1, truncateStringTotal p.2 70] = row :=
          Option.some.inj hf
        have hpk : p.1 = k := by
          rw [← hrow'] at hhead
          simpa using hhead
        have : p.2 = v := by
          refine val_eq_of_nodup_keys hnd ?_ hmem
          rw [← hpk]
          exact hpmem
        exact hcond.2 (by rw [this, hv])
      · rw [if_neg hcond] at hf
        cases hf
  · rintro ⟨p, hp, hpne⟩
    by_cases hk : p.1 ∈ orderedKeys
    · have hfind : d.find? (fun q => q.1 = p.1) = some (p.1, p.2) :=
        find_eq_of_nodup_keys hnd (by simpa using hp)
      have hmem : [p.1, truncateStringTotal p.2 70] ∈
          (orderedKeys.filterMap fun k =>
            match d.find? (fun q => q.1 = k) with
            | some q =>
              if q.2 ≠ "" then some [k, truncateStringTotal q.2 70] else Option.none
            | Option.none => Option.none) := by
        refine List.mem_filterMap.mpr ⟨p.1, hk, ?_⟩
        rw [hfind]
        simp [hpne]
      exact List.ne_nil_of_mem (List.mem_append_left _ hmem)
    · have hmem : [p.1, truncateStringTotal p.2 70] ∈
          d.filterMap (fun q =>
            if ¬ orderedKeys.contains q.1 ∧ q.2 ≠ "" then
              some [q.1, truncateStringTotal q.2 70]
            else Option.none) := by
        refine List.mem_filterMap.mpr ⟨p, hp, ?_⟩
        rw [if_pos ⟨by simpa using hk, hpne⟩]
      exact List.ne_nil_of_mem (List.mem_append_right _ hmem)

/-- C7 amended witness: the detail projection at a concrete success
completion and concrete map. -/
theorem podDetails_completion_total_witness :
    ((stepModel (initialModel [] [] [])
        (Msg.podDetailsMsg (some sampleDetails) true)).podDefTable.rows =
      podDefRows (if true then some sampleDetails else Option.none)) ∧
    (∀ k v, (k, v) ∈ sampleDetails → v = "" →
      ∀ row ∈ podDefRows (some sampleDetails), row.head? ≠ some k) ∧
    ((∃ p ∈ sampleDetails, p.2 ≠ "") → podDefRows (some sampleDetails) ≠ []) :=
  ⟨(podDetails_completion_total idTableStep (initialModel [] [] [])
      (stepModel (initialModel [] [] []) (Msg.podDetailsMsg (some sampleDetails) true))
      Cmd.none (some sampleDetails) true).1 (by decide),
   ((podDetails_completion_total idTableStep (initialModel [] [] [])
      (initialModel [] [] []) Cmd.none (some sampleDetails) true).2.2.2
      sampleDetails (by decide)).1,
   ((podDetails_completion_total idTableStep (initialModel [] [] [])
      (initialModel [] [] []) Cmd.none (some sampleDetails) true).2.2.2
      sampleDetails (by decide)).2⟩

/-- Every tab schema is non-empty. -/
theorem tabColumns_pos (t : Nat) : 0 < (tabColumns t).length := by
  unfold tabColumns
  split <;> decide

/-- Field-level description of `updateTableForTab` when the widget has
columns (always true after startup): only the widget's columns and rows
change, to the active tab's schema and the projection of the cached data. -/
theorem updateTableForTab_fields (m : Model) (h : ¬ m.table.columns = []) :
    (updateTableForTab m).activeTab = m.activeTab ∧
    (updateTableForTab m).showModal = m.showModal ∧
    (updateTableForTab m).tabs = m.tabs ∧
    (updateTableForTab m).gitData = m.gitData ∧
    (updateTableForTab m).dockerData = m.dockerData ∧
    (updateTableForTab m).kubesData = m.kubesData ∧
    (updateTableForTab m).table.columns = tabColumns m.activeTab ∧
    (updateTableForTab m).table.rows =
      tabRows m.activeTab m.gitData m.dockerData m.kubesData := by
  have hne : ¬ m.table.columns.isEmpty = true := by
    simpa [List.isEmpty_iff] using h
  have hc : 0 < (tabColumns m.activeTab).length := tabColumns_pos m.activeTab
  unfold updateTableForTab
  rw [if_neg hne]
  simp [hc]

/-- A tab-select key while no modal is open performs exactly the tab switch
plus `updateTableForTab`, with no command. -/
theorem tabSelect_step (ts : String → TableModel → TableModel) (m : Model)
    (k : String) (h1 : m.showModal = false) (hk : isTabSelectKey k = true) :
    update ts m (Msg.keyMsg k) =
      some (updateTableForTab { m with activeTab := tabTarget m k }, Cmd.none) := by
  have hk' : k = "1" ∨ k = "2" ∨ k = "3" ∨ k = "tab" := by
    have := hk
    simp [isTabSelectKey] at this
    tauto
  rcases hk' with rfl | rfl | rfl | rfl <;>
    simp [update, keyUpdate, tabTarget, h1]

/-- C9: after any non-empty sequence of tab-select events (keys "1".."3" or
the Tab cycle) processed while no modal is open, the active tab equals the
tab selected by the last event, the widget's columns are that tab's fixed
schema, its rows are re-derived from the (unchanged) cached domain data, the
modal stays closed, and no command is issued by any of the switches. -/
theorem tabSelect_sequence (ts : String → TableModel → TableModel) (m : Model)
    (ks : List String) (k : String) (h1 : m.showModal = false)
    (h3 : ¬ m.table.columns = [])
    (hks : ∀ x ∈ ks, isTabSelectKey x = true)
    (hk : isTabSelectKey k = true) :
    (runKeys ts m (ks ++ [k])).activeTab = tabTarget (runKeys ts m ks) k ∧
    (runKeys ts m (ks ++ [k])).table.columns =
      tabColumns (runKeys ts m (ks ++ [k])).activeTab ∧
    (runKeys ts m (ks ++ [k])).table.rows =
      tabRows (runKeys ts m (ks ++ [k])).activeTab
        m.gitData m.dockerData m.kubesData ∧
    (runKeys ts m (ks ++ [k])).showModal = false ∧
    cmdsOfKeys ts m (ks ++ [k]) = List.replicate (ks ++ [k]).length Cmd.none := by
  induction ks generalizing m with
  | nil =>
    have hstep := tabSelect_step ts m k h1 hk
    have hrun : runKeys ts m [k] =
        updateTableForTab { m with activeTab := tabTarget m k } := by
      simp [runKeys, stepModelT, hstep]
    have hfields := updateTableForTab_fields
      { m with activeTab := tabTarget m k } h3
    refine ⟨?_, ?_, ?_, ?_, ?_⟩
    · simp only [List.nil_append] at *
      rw [hrun]
      rw [hfields.1]
      simp [runKeys]
    · simp only [List.nil_append] at *
      rw [hrun, hfields.2.2.2.2.2.2.1, hfields.1]
    · simp only [List.nil_append] at *
      rw [hrun, hfields.2.2.2.2.2.2.2, hfields.1]
    · simp only [List.nil_append] at *
      rw [hrun, hfields.2.1]
      exact h1
    · simp only [List.nil_append]
      simp [cmdsOfKeys, stepCmdT, hstep]
  | cons x xs ih =>
    have hx : isTabSelectKey x = true := hks x (List.mem_cons_self x xs)
    have hstep := tabSelect_step ts m x h1 hx
    have hm' : stepModelT ts m (Msg.keyMsg x) =
        updateTableForTab { m with activeTab := tabTarget m x } := by
      simp [stepModelT, hstep]
    have hfields := updateTableForTab_fields
      { m with activeTab := tabTarget m x } h3
    have h1' : (stepModelT ts m (Msg.keyMsg x)).showModal = false := by
      rw [hm', hfields.2.1]
      exact h1
    have h3' : ¬ (stepModelT ts m (Msg.keyMsg x)).table.columns = [] := by
      rw [hm', hfields.2.2.2.2.2.2.1]
      intro hc
      have := tabColumns_pos ({ m with activeTab := tabTarget m x } : Model).activeTab
      rw [hc] at this
      simp at this
    have hks' : ∀ y ∈ xs, isTabSelectKey y = true :=
      fun y hy => hks y (List.mem_cons_of_mem x hy)
    have ihm := ih (stepModelT ts m (Msg.keyMsg x)) h1' h3' hks'
    have hdata : (stepModelT ts m (Msg.keyMsg x)).gitData = m.gitData ∧
        (stepModelT ts m (Msg.keyMsg x)).dockerData = m.dockerData ∧
        (stepModelT ts m (Msg.keyMsg x)).kubesData = m.kubesData := by
      rw [hm']
      exact ⟨hfields.2.2.2.1, hfields.2.2.2.2.1, hfields.2.2.2.2.2.1⟩
    have hrunxs : runKeys ts m ((x :: xs) ++ [k]) =
        runKeys ts (stepModelT ts m (Msg.keyMsg x)) (xs ++ [k]) := by
      simp [runKeys]
    have hrunpre : runKeys ts m (x :: xs) =
        runKeys ts (stepModelT ts m (Msg.keyMsg x)) xs := by
      simp [runKeys]
    refine ⟨?_, ?_, ?_, ?_, ?_⟩
    · rw [hrunxs, hrunpre]
      exact ihm.1
    · rw [hrunxs]
      exact ihm.2.1
    · rw [hrunxs, ← hdata.1, ← hdata.2.1, ← hdata.2.2]
      exact ihm.2.2.1
    · rw [hrunxs]
      exact ihm.2.2.2.1
    · have : cmdsOfKeys ts m ((x :: xs) ++ [k]) =
          stepCmdT ts m (Msg.keyMsg x) ::
            cmdsOfKeys ts (stepModelT ts m (Msg.keyMsg x)) (xs ++ [k]) := rfl
      rw [this, ihm.2.2.2.2]
      have hcmd : stepCmdT ts m (Msg.keyMsg x) = Cmd.none := by
        simp [stepCmdT, hstep]
      rw [hcmd]
      simp [List.replicate]

/-- C9 witness: a concrete two-event sequence ("2" then "tab") from the
startup model. -/
theorem tabSelect_sequence_witness :
    (initialModel [] [] []).showModal = false ∧
    ¬ (initialModel [] [] []).table.columns = [] ∧
    ((runKeys idTableStep (initialModel [] [] []) (["2"] ++ ["tab"])).activeTab =
        tabTarget (runKeys idTableStep (initialModel [] [] []) ["2"]) "tab" ∧
      (runKeys idTableStep (initialModel [] [] []) (["2"] ++ ["tab"])).table.columns =
        tabColumns (runKeys idTableStep (initialModel [] [] [])
          (["2"] ++ ["tab"])).activeTab ∧
      (runKeys idTableStep (initialModel [] [] []) (["2"] ++ ["tab"])).table.rows =
        tabRows (runKeys idTableStep (initialModel [] [] [])
          (["2"] ++ ["tab"])).activeTab [] [] [] ∧
      (runKeys idTableStep (initialModel [] [] []) (["2"] ++ ["tab"])).showModal
        = false ∧
      cmdsOfKeys idTableStep (initialModel [] [] []) (["2"] ++ ["tab"]) =
        List.replicate (["2"] ++ ["tab"] : List String).length Cmd.none) :=
  ⟨rfl, by decide,
   tabSelect_sequence idTableStep (initialModel [] [] []) ["2"] "tab" rfl
     (by decide) (by decide) (by decide)⟩

/-- `updateTableForTab` never touches the wizard's candidate cursor. -/
theorem updateTableForTab_selDep (m : Model) :
    (updateTableForTab m).selectedDeployment = m.selectedDeployment := by
  unfold updateTableForTab
  split <;> rfl

theorem updateTableForTab_modalStep (m : Model) :
    (updateTableForTab m).modalStep = m.modalStep := by
  unfold updateTableForTab
  split <;> rfl

theorem tableFallthrough_selDep (ts : String → TableModel → TableModel)
    (m : Model) (k : String) :
    (tableFallthrough ts m k).selectedDeployment = m.selectedDeployment := by
  unfold tableFallthrough
  split <;> rfl

theorem tableFallthrough_modalStep (ts : String → TableModel → TableModel)
    (m : Model) (k : String) :
    (tableFallthrough ts m k).modalStep = m.modalStep := by
  unfold tableFallthrough
  split <;> rfl

theorem initPodDefTable_selDep (m : Model) (d : Option (List (String × String))) :
    (initPodDefTable m d).selectedDeployment = m.selectedDeployment := rfl

theorem initPodDefTable_modalStep (m : Model) (d : Option (List (String × String))) :
    (initPodDefTable m d).modalStep = m.modalStep := rfl

set_option maxHeartbeats 1000000 in
/-- Every controller transition that does not panic preserves the wizard
cursor/step invariant, for every message. -/
theorem update_preserves_Inv (ts : String → TableModel → TableModel)
    (m : Model) (msg : Msg) (m' : Model) (c : Cmd)
    (hInv : Inv m) (h3 : update ts m msg = some (m', c)) : Inv m' := by
  obtain ⟨h1, h2, h4⟩ := hInv
  cases msg
  all_goals simp only [update] at h3
  case keyMsg k =>
    by_cases eK1 : k = "ctrl+c"
    · subst eK1
      simp [keyUpdate] at h3
      repeat' split at h3
      all_goals try dsimp only at h3
      all_goals repeat' split at h3
      all_goals
        first
          | exact Option.noConfusion h3
          | (obtain ⟨e1x, e2x⟩ := h3
             rw [← e1x]
             unfold Inv
             refine ⟨?_, ?_, ?_⟩ <;> (try simp [updateTableForTab_selDep,
               updateTableForTab_modalStep, tableFallthrough_selDep,
               tableFallthrough_modalStep, initPodDefTable_selDep,
               initPodDefTable_modalStep]) <;> omega)
          | (have e := Option.some.inj h3
             have e1x : _ = m' := congrArg Prod.fst e
             rw [← e1x]
             unfold Inv
             refine ⟨?_, ?_, ?_⟩ <;> (try simp [updateTableForTab_selDep,
               updateTableForTab_modalStep, tableFallthrough_selDep,
               tableFallthrough_modalStep, initPodDefTable_selDep,
               initPodDefTable_modalStep]) <;> omega)
    by_cases eK2 : k = "q"
    · subst eK2
      simp [keyUpdate] at h3
      repeat' split at h3
      all_goals try dsimp only at h3
      all_goals repeat' split at h3
      all_goals
        first
          | exact Option.noConfusion h3
          | (obtain ⟨e1x, e2x⟩ := h3
             rw [← e1x]
             unfold Inv
             refine ⟨?_, ?_, ?_⟩ <;> (try simp [updateTableForTab_selDep,
               updateTableForTab_modalStep, tableFallthrough_selDep,
               tableFallthrough_modalStep, initPodDefTable_selDep,
               initPodDefTable_modalStep]) <;> omega)
          | (have e := Option.some.inj h3
             have e1x : _ = m' := congrArg Prod.fst e
             rw [← e1x]
             unfold Inv
             refine ⟨?_, ?_, ?_⟩ <;> (try simp [updateTableForTab_selDep,
               updateTableForTab_modalStep, tableFallthrough_selDep,
               tableFallthrough_modalStep, initPodDefTable_selDep,
               initPodDefTable_modalStep]) <;> omega)
    by_cases eK3 : k = "1"
    · subst eK3
      simp [keyUpdate] at h3
      repeat' split at h3
      all_goals try dsimp only at h3
      all_goals repeat' split at h3
      all_goals
        first
          | exact Option.noConfusion h3
          | (obtain ⟨e1x, e2x⟩ := h3
             rw [← e1x]
             unfold Inv
             refine ⟨?_, ?_, ?_⟩ <;> (try simp [updateTableForTab_selDep,
               updateTableForTab_modalStep, tableFallthrough_selDep,
               tableFallthrough_modalStep, initPodDefTable_selDep,
               initPodDefTable_modalStep]) <;> omega)
          | (have e := Option.some.inj h3
             have e1x : _ = m' := congrArg Prod.fst e
             rw [← e1x]
             unfold Inv
             refine ⟨?_, ?_, ?_⟩ <;> (try simp [updateTableForTab_selDep,
               updateTableForTab_modalStep, tableFallthrough_selDep,
               tableFallthrough_modalStep, initPodDefTable_selDep,
               initPodDefTable_modalStep]) <;> omega)
    by_cases eK4 : k = "2"
    · subst eK4
      simp [keyUpdate] at h3
      repeat' split at h3
      all_goals try dsimp only at h3
      all_goals repeat' split at h3
      all_goals
        first
          | exact Option.noConfusion h3
          | (obtain ⟨e1x, e2x⟩ := h3
             rw [← e1x]
             unfold Inv
             refine ⟨?_, ?_, ?_⟩ <;> (try simp [updateTableForTab_selDep,
               updateTableForTab_modalStep, tableFallthrough_selDep,
               tableFallthrough_modalStep, initPodDefTable_selDep,
               initPodDefTable_modalStep]) <;> omega)
          | (have e := Option.some.inj h3
             have e1x : _ = m' := congrArg Prod.fst e
             rw [← e1x]
             unfold Inv
             refine ⟨?_, ?_, ?_⟩ <;> (try simp [updateTableForTab_selDep,
               updateTableForTab_modalStep, tableFallthrough_selDep,
               tableFallthrough_modalStep, initPodDefTable_selDep,
               initPodDefTable_modalStep]) <;> omega)
    by_cases eK5 : k = "3"
    · subst eK5
      simp [keyUpdate] at h3
      repeat' split at h3
      all_goals try dsimp only at h3
      all_goals repeat' split at h3
      all_goals
        first
          | exact Option.noConfusion h3
          | (obtain ⟨e1x, e2x⟩ := h3
             rw [← e1x]
             unfold Inv
             refine ⟨?_, ?_, ?_⟩ <;> (try simp [updateTableForTab_selDep,
               updateTableForTab_modalStep, tableFallthrough_selDep,
               tableFallthrough_modalStep, initPodDefTable_selDep,
               initPodDefTable_modalStep]) <;> omega)
          | (have e := Option.some.inj h3
             have e1x : _ = m' := congrArg Prod.fst e
             rw [← e1x]
             unfold Inv
             refine ⟨?_, ?_, ?_⟩ <;> (try simp [updateTableForTab_selDep,
               updateTableForTab_modalStep, tableFallthrough_selDep,
               tableFallthrough_modalStep, initPodDefTable_selDep,
               initPodDefTable_modalStep]) <;> omega)
    by_cases eK6 : k = "tab"
    · subst eK6
      simp [keyUpdate] at h3
      repeat' split at h3
      all_goals try dsimp only at h3
      all_goals repeat' split at h3
      all_goals
        first
          | exact Option.noConfusion h3
          | (obtain ⟨e1x, e2x⟩ := h3
             rw [← e1x]
             unfold Inv
             refine ⟨?_, ?_, ?_⟩ <;> (try simp [updateTableForTab_selDep,
               updateTableForTab_modalStep, tableFallthrough_selDep,
               tableFallthrough_modalStep, initPodDefTable_selDep,
               initPodDefTable_modalStep]) <;> omega)
          | (have e := Option.some.inj h3
             have e1x : _ = m' := congrArg Prod.fst e
             rw [← e1x]
             unfold Inv
             refine ⟨?_, ?_, ?_⟩ <;> (try simp [updateTableForTab_selDep,
               updateTableForTab_modalStep, tableFallthrough_selDep,
               tableFallthrough_modalStep, initPodDefTable_selDep,
               initPodDefTable_modalStep]) <;> omega)
    by_cases eK7 : k = "enter"
    · subst eK7
      simp [keyUpdate] at h3
      repeat' split at h3
      all_goals try dsimp only at h3
      all_goals repeat' split at h3
      all_goals
        first
          | exact Option.noConfusion h3
          | (obtain ⟨e1x, e2x⟩ := h3
             rw [← e1x]
             unfold Inv
             refine ⟨?_, ?_, ?_⟩ <;> (try simp [updateTableForTab_selDep,
               updateTableForTab_modalStep, tableFallthrough_selDep,
               tableFallthrough_modalStep, initPodDefTable_selDep,
               initPodDefTable_modalStep]) <;> omega)
          | (have e := Option.some.inj h3
             have e1x : _ = m' := congrArg Prod.fst e
             rw [← e1x]
             unfold Inv
             refine ⟨?_, ?_, ?_⟩ <;> (try simp [updateTableForTab_selDep,
               updateTableForTab_modalStep, tableFallthrough_selDep,
               tableFallthrough_modalStep, initPodDefTable_selDep,
               initPodDefTable_modalStep]) <;> omega)
    by_cases eK8 : k = "esc"
    · subst eK8
      simp [keyUpdate] at h3
      repeat' split at h3
      all_goals try dsimp only at h3
      all_goals repeat' split at h3
      all_goals
        first
          | exact Option.noConfusion h3
          | (obtain ⟨e1x, e2x⟩ := h3
             rw [← e1x]
             unfold Inv
             refine ⟨?_, ?_, ?_⟩ <;> (try simp [updateTableForTab_selDep,
               updateTableForTab_modalStep, tableFallthrough_selDep,
               tableFallthrough_modalStep, initPodDefTable_selDep,
               initPodDefTable_modalStep]) <;> omega)
          | (have e := Option.some.inj h3
             have e1x : _ = m' := congrArg Prod.fst e
             rw [← e1x]
             unfold Inv
             refine ⟨?_, ?_, ?_⟩ <;> (try simp [updateTableForTab_selDep,
               updateTableForTab_modalStep, tableFallthrough_selDep,
               tableFallthrough_modalStep, initPodDefTable_selDep,
               initPodDefTable_modalStep]) <;> omega)
    by_cases eK9 : k = "up"
    · subst eK9
      simp [keyUpdate] at h3
      repeat' split at h3
      all_goals try dsimp only at h3
      all_goals repeat' split at h3
      all_goals
        first
          | exact Option.noConfusion h3
          | (obtain ⟨e1x, e2x⟩ := h3
             rw [← e1x]
             unfold Inv
             refine ⟨?_, ?_, ?_⟩ <;> (try simp [updateTableForTab_selDep,
               updateTableForTab_modalStep, tableFallthrough_selDep,
               tableFallthrough_modalStep, initPodDefTable_selDep,
               initPodDefTable_modalStep]) <;> omega)
          | (have e := Option.some.inj h3
             have e1x : _ = m' := congrArg Prod.fst e
             rw [← e1x]
             unfold Inv
             refine ⟨?_, ?_, ?_⟩ <;> (try simp [updateTableForTab_selDep,
               updateTableForTab_modalStep, tableFallthrough_selDep,
               tableFallthrough_modalStep, initPodDefTable_selDep,
               initPodDefTable_modalStep]) <;> omega)
    by_cases eK10 : k = "k"
    · subst eK10
      simp [keyUpdate] at h3
      repeat' split at h3
      all_goals try dsimp only at h3
      all_goals repeat' split at h3
      all_goals
        first
          | exact Option.noConfusion h3
          | (obtain ⟨e1x, e2x⟩ := h3
             rw [← e1x]
             unfold Inv
             refine ⟨?_, ?_, ?_⟩ <;> (try simp [updateTableForTab_selDep,
               updateTableForTab_modalStep, tableFallthrough_selDep,
               tableFallthrough_modalStep, initPodDefTable_selDep,
               initPodDefTable_modalStep]) <;> omega)
          | (have e := Option.some.inj h3
             have e1x : _ = m' := congrArg Prod.fst e
             rw [← e1x]
             unfold Inv
             refine ⟨?_, ?_, ?_⟩ <;> (try simp [updateTableForTab_selDep,
               updateTableForTab_modalStep, tableFallthrough_selDep,
               tableFallthrough_modalStep, initPodDefTable_selDep,
               initPodDefTable_modalStep]) <;> omega)
    by_cases eK11 : k = "down"
    · subst eK11
      simp [keyUpdate] at h3
      repeat' split at h3
      all_goals try dsimp only at h3
      all_goals repeat' split at h3
      all_goals
        first
          | exact Option.noConfusion h3
          | (obtain ⟨e1x, e2x⟩ := h3
             rw [← e1x]
             unfold Inv
             refine ⟨?_, ?_, ?_⟩ <;> (try simp [updateTableForTab_selDep,
               updateTableForTab_modalStep, tableFallthrough_selDep,
               tableFallthrough_modalStep, initPodDefTable_selDep,
               initPodDefTable_modalStep]) <;> omega)
          | (have e := Option.some.inj h3
             have e1x : _ = m' := congrArg Prod.fst e
             rw [← e1x]
             unfold Inv
             refine ⟨?_, ?_, ?_⟩ <;> (try simp [updateTableForTab_selDep,
               updateTableForTab_modalStep, tableFallthrough_selDep,
               tableFallthrough_modalStep, initPodDefTable_selDep,
               initPodDefTable_modalStep]) <;> omega)
    by_cases eK12 : k = "j"
    · subst eK12
      simp [keyUpdate] at h3
      repeat' split at h3
      all_goals try dsimp only at h3
      all_goals repeat' split at h3
      all_goals
        first
          | exact Option.noConfusion h3
          | (obtain ⟨e1x, e2x⟩ := h3
             rw [← e1x]
             unfold Inv
             refine ⟨?_, ?_, ?_⟩ <;> (try simp [updateTableForTab_selDep,
               updateTableForTab_modalStep, tableFallthrough_selDep,
               tableFallthrough_modalStep, initPodDefTable_selDep,
               initPodDefTable_modalStep]) <;> omega)
          | (have e := Option.some.inj h3
             have e1x : _ = m' := congrArg Prod.fst e
             rw [← e1x]
             unfold Inv
             refine ⟨?_, ?_, ?_⟩ <;> (try simp [updateTableForTab_selDep,
               updateTableForTab_modalStep, tableFallthrough_selDep,
               tableFallthrough_modalStep, initPodDefTable_selDep,
               initPodDefTable_modalStep]) <;> omega)
    by_cases eK13 : k = "ctrl+d"
    · subst eK13
      simp [keyUpdate] at h3
      repeat' split at h3
      all_goals try dsimp only at h3
      all_goals repeat' split at h3
      all_goals
        first
          | exact Option.noConfusion h3
          | (obtain ⟨e1x, e2x⟩ := h3
             rw [← e1x]
             unfold Inv
             refine ⟨?_, ?_, ?_⟩ <;> (try simp [updateTableForTab_selDep,
               updateTableForTab_modalStep, tableFallthrough_selDep,
               tableFallthrough_modalStep, initPodDefTable_selDep,
               initPodDefTable_modalStep]) <;> omega)
          | (have e := Option.some.inj h3
             have e1x : _ = m' := congrArg Prod.fst e
             rw [← e1x]
             unfold Inv
             refine ⟨?_, ?_, ?_⟩ <;> (try simp [updateTableForTab_selDep,
               updateTableForTab_modalStep, tableFallthrough_selDep,
               tableFallthrough_modalStep, initPodDefTable_selDep,
               initPodDefTable_modalStep]) <;> omega)
    by_cases eK14 : k = "ctrl+p"
    · subst eK14
      simp [keyUpdate] at h3
      repeat' split at h3
      all_goals try dsimp only at h3
      all_goals repeat' split at h3
      all_goals
        first
          | exact Option.noConfusion h3
          | (obtain ⟨e1x, e2x⟩ := h3
             rw [← e1x]
             unfold Inv
             refine ⟨?_, ?_, ?_⟩ <;> (try simp [updateTableForTab_selDep,
               updateTableForTab_modalStep, tableFallthrough_selDep,
               tableFallthrough_modalStep, initPodDefTable_selDep,
               initPodDefTable_modalStep]) <;> omega)
          | (have e := Option.some.inj h3
             have e1x : _ = m' := congrArg Prod.fst e
             rw [← e1x]
             unfold Inv
             refine ⟨?_, ?_, ?_⟩ <;> (try simp [updateTableForTab_selDep,
               updateTableForTab_modalStep, tableFallthrough_selDep,
               tableFallthrough_modalStep, initPodDefTable_selDep,
               initPodDefTable_modalStep]) <;> omega)
    unfold keyUpdate at h3
    rw [if_neg (by simp [eK1, eK2])] at h3
    rw [if_neg eK3] at h3
    rw [if_neg eK4] at h3
    rw [if_neg eK5] at h3
    rw [if_neg eK6] at h3
    rw [if_neg eK7] at h3
    rw [if_neg eK8] at h3
    rw [if_neg (by simp [eK9, eK10])] at h3
    rw [if_neg (by simp [eK11, eK12])] at h3
    rw [if_neg eK13] at h3
    rw [if_neg eK14] at h3
    all_goals
      first
        | exact Option.noConfusion h3
        | (obtain ⟨e1x, e2x⟩ := h3
           rw [← e1x]
           unfold Inv
           refine ⟨?_, ?_, ?_⟩ <;> (try simp [updateTableForTab_selDep,
             updateTableForTab_modalStep, tableFallthrough_selDep,
             tableFallthrough_modalStep, initPodDefTable_selDep,
             initPodDefTable_modalStep]) <;> omega)
        | (have e := Option.some.inj h3
           have e1x : _ = m' := congrArg Prod.fst e
           rw [← e1x]
           unfold Inv
           refine ⟨?_, ?_, ?_⟩ <;> (try simp [updateTableForTab_selDep,
             updateTableForTab_modalStep, tableFallthrough_selDep,
             tableFallthrough_modalStep, initPodDefTable_selDep,
             initPodDefTable_modalStep]) <;> omega)

  all_goals repeat' split at h3
  all_goals try dsimp only at h3
  all_goals repeat' split at h3
  all_goals
    first
      | exact Option.noConfusion h3
      | (obtain ⟨e1x, e2x⟩ := h3
         rw [← e1x]
         unfold Inv
         refine ⟨?_, ?_, ?_⟩ <;> (try simp [updateTableForTab_selDep,
           updateTableForTab_modalStep, tableFallthrough_selDep,
           tableFallthrough_modalStep, initPodDefTable_selDep,
           initPodDefTable_modalStep]) <;> omega)
      | (have e := Option.some.inj h3
         have e1x : _ = m' := congrArg Prod.fst e
         rw [← e1x]
         unfold Inv
         refine ⟨?_, ?_, ?_⟩ <;> (try simp [updateTableForTab_selDep,
           updateTableForTab_modalStep, tableFallthrough_selDep,
           tableFallthrough_modalStep, initPodDefTable_selDep,
           initPodDefTable_modalStep]) <;> omega)


/-- C10: the wizard's candidate cursor is safe in every reachable state.
The invariant `Inv` — cursor ≥ -1, step in {0,1,2}, and, in the confirmation
step, cursor ≥ 0 — holds at the initial model and is preserved by every
transition; up/down navigation in SelectTarget never moves the cursor below
-1 nor above `len(deployments)-1`; and with the invariant the
confirmation-commit handler and the confirmation renderer never index the
deployments list out of bounds (no panic: the transition is `some`, and the
renderer's lookup is defined). -/
theorem wizard_cursor_invariant :
    (∀ g d kd, Inv (initialModel g d kd)) ∧
    (∀ ts m msg m' c, Inv m → update ts m msg = some (m', c) → Inv m') ∧
    (∀ ts m m' c, Inv m → m.showModal = true → m.modalStep = 0 →
      update ts m (Msg.keyMsg "up") = some (m', c) →
      -1 ≤ m'.selectedDeployment ∧
        (m'.selectedDeployment = m.selectedDeployment ∨
          m'.selectedDeployment = m.selectedDeployment - 1)) ∧
    (∀ ts m m' c, Inv m → m.showModal = true → m.modalStep = 0 →
      update ts m (Msg.keyMsg "down") = some (m', c) →
      m'.selectedDeployment = m.selectedDeployment ∨
        (m'.selectedDeployment = m.selectedDeployment + 1 ∧
          m'.selectedDeployment ≤ (m.deployments.length : Int) - 1)) ∧
    (∀ ts m, Inv m → m.showModal = true → m.modalStep = 2 →
      (update ts m (Msg.keyMsg "1")).isSome) ∧
    (∀ m, Inv m → m.modalStep = 2 → (confirmStepSelectedDep m).isSome) := by
  refine ⟨?_, update_preserves_Inv, ?_, ?_, ?_, ?_⟩
  · intro g d kd
    refine ⟨?_, ?_, ?_⟩ <;> simp [initialModel, Inv]
  · intro ts m m' c hI hsm hms h3
    obtain ⟨hI1, hI2, hI3⟩ := hI
    simp [update, keyUpdate, hsm, hms] at h3
    split at h3
    all_goals
      first
        | (obtain ⟨e1x, e2x⟩ := h3
           rw [← e1x]
           simp
           try omega)
        | (have e := Option.some.inj h3
           have e1x : _ = m' := congrArg Prod.fst e
           rw [← e1x]
           simp
           try omega)
  · intro ts m m' c hI hsm hms h3
    obtain ⟨hI1, hI2, hI3⟩ := hI
    simp [update, keyUpdate, hsm, hms] at h3
    split at h3
    all_goals
      first
        | (obtain ⟨e1x, e2x⟩ := h3
           rw [← e1x]
           simp
           try omega)
        | (have e := Option.some.inj h3
           have e1x : _ = m' := congrArg Prod.fst e
           rw [← e1x]
           simp
           try omega)
  · intro ts m hI hsm hms2
    obtain ⟨hI1, hI2, hI3⟩ := hI
    have h0 : 0 ≤ m.selectedDeployment := hI3 hms2
    simp only [update]
    unfold keyUpdate
    rw [if_neg (by decide), if_pos rfl, if_pos hsm,
      if_neg (by omega : ¬ m.modalStep = 0), if_neg (by omega : ¬ m.modalStep = 1)]
    dsimp only
    split
    · rename_i hg
      have hlt : m.selectedDeployment.toNat < m.deployments.length := by omega
      have hgi : goIndex m.deployments m.selectedDeployment =
          some (m.deployments.get ⟨m.selectedDeployment.toNat, hlt⟩) := by
        unfold goIndex
        rw [if_pos h0]
        simp [List.getElem?_eq_getElem hlt]
      rw [hgi]
      simp
    · simp
  · intro m hI hms2
    obtain ⟨hI1, hI2, hI3⟩ := hI
    have h0 : 0 ≤ m.selectedDeployment := hI3 hms2
    unfold confirmStepSelectedDep
    split
    · rename_i hg
      have hlt : m.selectedDeployment.toNat < m.deployments.length := by omega
      unfold goIndex
      rw [if_pos h0]
      simp [List.getElem?_eq_getElem hlt]
    · simp

/-- C10 witness: the invariant conjuncts instantiated at concrete states
(startup model, a modal-open state, its Esc and up transitions, and its
confirmation step). -/
theorem wizard_cursor_invariant_witness :
    Inv (initialModel [] [] []) ∧
    Inv (stepModel modalOpenC8 (Msg.keyMsg "esc")) ∧
    (-1 ≤ (stepModel modalOpenC8 (Msg.keyMsg "up")).selectedDeployment ∧
      ((stepModel modalOpenC8 (Msg.keyMsg "up")).selectedDeployment =
          modalOpenC8.selectedDeployment ∨
        (stepModel modalOpenC8 (Msg.keyMsg "up")).selectedDeployment =
          modalOpenC8.selectedDeployment - 1)) ∧
    (update idTableStep { modalOpenC8 with modalStep := 2 }
      (Msg.keyMsg "1")).isSome ∧
    (confirmStepSelectedDep { modalOpenC8 with modalStep := 2 }).isSome :=
  ⟨wizard_cursor_invariant.1 [] [] [],
   wizard_cursor_invariant.2.1 idTableStep modalOpenC8 (Msg.keyMsg "esc")
     (stepModel modalOpenC8 (Msg.keyMsg "esc")) Cmd.none (by decide) (by decide),
   wizard_cursor_invariant.2.2.1 idTableStep modalOpenC8
     (stepModel modalOpenC8 (Msg.keyMsg "up")) Cmd.none (by decide) rfl rfl
     (by decide),
   wizard_cursor_invariant.2.2.2.2.1 idTableStep
     { modalOpenC8 with modalStep := 2 } (by decide) rfl rfl,
   wizard_cursor_invariant.2.2.2.2.2 { modalOpenC8 with modalStep := 2 }
     (by decide) rfl⟩

end LCR
